import Mathlib

/-!
Verification development for the e-commerce repository.

We shallowly embed the data model and the state-mutating handlers of the
fuller-featured application variant (`ecommerce_project/ecommerce/views.py`),
which the specification follows. Decimal money amounts (two decimal places)
are represented exactly as integer cents (`Nat`). Stock counts are modelled
as `Int` so that the non-negativity of stock is a provable property rather
than a typing artefact. The variant's `models.py` is not part of the source
tree; the few model-layer helpers the views call (`Cart.get_total_price`,
`Product.is_in_stock`, order-identifier generation, the default order
status) are modelled from the specification and marked as such in their
doc comments. Everything else is translated from the view code.
-/

/-- A product row (`Product` model; fields used by the views:
`id`, `store`, `name`, `price`, `quantity_in_stock`, `is_active`). -/
structure Product where
  id : Nat
  storeId : Nat
  name : String
  price : Nat
  quantity_in_stock : Int
  is_active : Bool
deriving DecidableEq, Repr

/-- A cart line (`CartItem` model): the referenced product and a quantity. -/
structure CartItem where
  productId : Nat
  quantity : Nat
deriving DecidableEq, Repr

/-- A session cart (`Cart` model): its list of lines, in insertion order. -/
structure Cart where
  items : List CartItem
deriving DecidableEq, Repr

/-- An order row (`Order` model; fields used by the views: `order_id`,
`buyer`, `total_amount`, `shipping_address`, `status`). -/
structure Order where
  order_id : Nat
  buyer : Nat
  total_amount : Nat
  shipping_address : String
  status : String
deriving DecidableEq, Repr

/-- An order line (`OrderItem` model): owning order, product reference,
quantity and the price snapshot `price_at_purchase`. -/
structure OrderItem where
  orderId : Nat
  productId : Nat
  quantity : Nat
  price_at_purchase : Nat
deriving DecidableEq, Repr

/-- A review row (`Review` model; fields used by the views: `product`,
`buyer`, `rating`, `comment`, `is_verified`). -/
structure Review where
  productId : Nat
  buyer : Nat
  rating : Nat
  comment : String
  is_verified : Bool
deriving DecidableEq, Repr

/-- The relational store: the tables the embedded handlers touch, plus the
counter backing fresh order-identifier generation. -/
structure DB where
  products : List Product
  orders : List Order
  orderItems : List OrderItem
  reviews : List Review
  nextOrderId : Nat
deriving DecidableEq, Repr

/-- Look a product up by id in a product table (`Product.objects.get(id=pid)`). -/
def findP (ps : List Product) (pid : Nat) : Option Product :=
  ps.find? (fun p => p.id == pid)

/-- Look a product up by id (`get_object_or_404(Product, id=product_id)`). -/
def findProduct (db : DB) (pid : Nat) : Option Product :=
  findP db.products pid

/-- Look an active product up by id
(`get_object_or_404(Product, id=product_id, is_active=True)`). -/
def findProductActive (db : DB) (pid : Nat) : Option Product :=
  db.products.find? (fun p => p.id == pid && p.is_active)

/-- Write a new stock value for the product with the given id
(`product.quantity_in_stock = v; product.save()`). -/
def setStock (ps : List Product) (pid : Nat) (v : Int) : List Product :=
  ps.map (fun p => if p.id == pid then { p with quantity_in_stock := v } else p)

/-- Price of the product with the given id, defaulting to 0 when absent. -/
def priceAtL (ps : List Product) (pid : Nat) : Nat :=
  ((findP ps pid).map Product.price).getD 0

/-- Price of the product with the given id in the store. -/
def priceAt (db : DB) (pid : Nat) : Nat :=
  priceAtL db.products pid

/-- Stock of the product with the given id, defaulting to 0 when absent. -/
def stockAtL (ps : List Product) (pid : Nat) : Int :=
  ((findP ps pid).map Product.quantity_in_stock).getD 0

/-- Stock of the product with the given id in the store. -/
def stockAt (db : DB) (pid : Nat) : Int :=
  stockAtL db.products pid

/-- Modelled from the spec (the variant's `models.py` is absent from the
source tree): `Product.is_in_stock()` — the glossary defines stock as the
count of purchasable units, so a product is in stock when that count is
positive. -/
def is_in_stock (p : Product) : Bool :=
  0 < p.quantity_in_stock

/-- Modelled from the spec (the variant's `models.py` is absent from the
source tree): `Cart.get_total_price()` — "total_price(cart) = sum of item
price × quantity over active items". A line whose product is inactive (or
dangling, impossible under referential integrity) contributes 0. -/
def get_total_price (db : DB) (cart : Cart) : Nat :=
  (cart.items.map (fun it =>
    match findProduct db it.productId with
    | some p => if p.is_active then p.price * it.quantity else 0
    | none => 0)).sum

/-- Outcome of the per-item loop of `checkout` (`views.py` lines 534-548),
carrying the store as the loop left it. -/
inductive ItemsOutcome where
  /-- Every cart item passed the stock check and was persisted. -/
  | ok (db : DB)
  /-- A cart item failed the stock check: `Insufficient stock for {name}`;
  the loop stops, leaving earlier items persisted. -/
  | stockFail (productId : Nat) (db : DB)
  /-- A cart line references a product id absent from the store; unreachable
  under the foreign-key integrity the persistence layer enforces. -/
  | missingProduct (productId : Nat) (db : DB)
deriving DecidableEq, Repr

/-- The store as an `ItemsOutcome` left it. -/
def ItemsOutcome.db : ItemsOutcome → DB
  | .ok db => db
  | .stockFail _ db => db
  | .missingProduct _ db => db

/-- The per-item loop of `checkout` (`views.py` lines 534-548): for each cart
item in order, re-read the product, check `quantity_in_stock >= quantity`,
and on success create the `OrderItem` (freezing `price_at_purchase` to the
product's current price) and decrement the product's stock; on failure stop
with the offending product, leaving all earlier effects in place. -/
def processCartItems (oid : Nat) (db : DB) : List CartItem → ItemsOutcome
  | [] => .ok db
  | it :: rest =>
    match findProduct db it.productId with
    | none => .missingProduct it.productId db
    | some p =>
      if (it.quantity : Int) ≤ p.quantity_in_stock then
        processCartItems oid
          { db with
            orderItems := db.orderItems ++
              [⟨oid, it.productId, it.quantity, p.price⟩],
            products := setStock db.products it.productId
              (p.quantity_in_stock - (it.quantity : Int)) }
          rest
      else
        .stockFail it.productId db

/-- The order row `checkout` creates (`Order.objects.create(...)`,
`views.py` lines 527-531). The external order identifier and the default
status are modelled from the spec (the variant's `models.py` is absent):
"a freshly generated external order identifier" is modelled by the
`nextOrderId` counter, and a newly created order carries the initial
status `"pending"`. -/
def newOrder (db : DB) (buyer : Nat) (cart : Cart) (addr : String) : Order :=
  { order_id := db.nextOrderId
    buyer := buyer
    total_amount := get_total_price db cart
    shipping_address := addr
    status := "pending" }

/-- Result of the `checkout` view, as surfaced to the shopper. -/
inductive CheckoutResult where
  /-- `Your cart is empty.` — redirect back to the cart page. -/
  | emptyCart
  /-- `Shipping address is required.` — re-render the checkout page. -/
  | missingAddress
  /-- `Insufficient stock for {product}` — re-render the checkout page. -/
  | insufficientStock (productId : Nat)
  /-- A cart line's product id is dangling; unreachable under the
  foreign-key integrity the persistence layer enforces. -/
  | integrityError (productId : Nat)
  /-- `Order #{order_id} placed successfully!` — redirect to confirmation. -/
  | success (order : Order)
deriving DecidableEq, Repr

/-- The `checkout` view (`views.py` lines 500-563) on a POST request,
translated line by line: reject an empty cart; reject a missing shipping
address; create the `Order` row (with the cart's total, computed from
current prices, as `total_amount`); run the per-item loop; on full success
delete the cart (`none` in the third component) and return the order, and
on a stock failure keep the cart and report the offending product. The
buyer-role guard of the view is a precondition of the callers modelled
here. -/
def checkout (db : DB) (cart : Cart) (buyer : Nat) (shipping : Option String) :
    CheckoutResult × DB × Option Cart :=
  if cart.items.isEmpty then
    (.emptyCart, db, some cart)
  else
    match shipping with
    | none => (.missingAddress, db, some cart)
    | some addr =>
      let order := newOrder db buyer cart addr
      let db1 := { db with
        orders := db.orders ++ [order]
        nextOrderId := db.nextOrderId + 1 }
      match processCartItems order.order_id db1 cart.items with
      | .ok db2 => (.success order, db2, none)
      | .stockFail pid db2 => (.insufficientStock pid, db2, some cart)
      | .missingProduct pid db2 => (.integrityError pid, db2, some cart)

/-- Result of the `add_to_cart` view, as surfaced to the shopper. -/
inductive AddToCartResult where
  /-- The product id does not name an active product (`get_object_or_404`). -/
  | productMissing
  /-- `Insufficient stock` — the product is out of stock or the requested
  quantity exceeds its stock. -/
  | insufficientStock
  /-- `Product added to cart`. -/
  | added
deriving DecidableEq, Repr

/-- The `add_to_cart` view (`views.py` lines 364-400), translated line by
line: resolve the active product; reject when it is out of stock or its
stock is below the requested quantity; then `get_or_create` the cart line —
a fresh line is created with the requested quantity, an existing line is
incremented by it and clamped down to the product's stock. The
authenticated-buyer guard is a precondition of the callers modelled here. -/
def add_to_cart (db : DB) (cart : Cart) (pid : Nat) (quantity : Nat) :
    AddToCartResult × Cart :=
  match findProductActive db pid with
  | none => (.productMissing, cart)
  | some p =>
    if !(is_in_stock p) || p.quantity_in_stock < (quantity : Int) then
      (.insufficientStock, cart)
    else
      match cart.items.find? (fun it => it.productId == pid) with
      | none => (.added, ⟨cart.items ++ [⟨pid, quantity⟩]⟩)
      | some _ =>
        (.added, ⟨cart.items.map (fun it =>
          if it.productId == pid then
            { it with quantity :=
                if p.quantity_in_stock < ((it.quantity + quantity : Nat) : Int) then
                  p.quantity_in_stock.toNat
                else
                  it.quantity + quantity }
          else it)⟩)

/-- Result of the `update_cart_item` view, as surfaced to the shopper. -/
inductive UpdateCartResult where
  /-- The item id does not name a line of this cart (`get_object_or_404`). -/
  | itemMissing
  /-- `Item removed from cart` — requested quantity was ≤ 0. -/
  | removedItem
  /-- `Only {n} items available` — requested quantity exceeds stock; the
  line is left unchanged. -/
  | onlyAvailable (n : Int)
  /-- `Cart updated` — the requested quantity was saved. -/
  | updated
deriving DecidableEq, Repr

/-- The `update_cart_item` view (`views.py` lines 444-480), translated line
by line, with the cart line addressed by its product id (one line per
product per cart, as `get_or_create` keys lines on the product): delete the
line when the requested quantity is ≤ 0; reject — without clamping or
saving — when it exceeds the product's stock; otherwise save it. The
request payload's quantity is an arbitrary integer (`int(data['quantity'])`),
hence `Int`. -/
def update_cart_item (db : DB) (cart : Cart) (pid : Nat) (new_quantity : Int) :
    UpdateCartResult × Cart :=
  match cart.items.find? (fun it => it.productId == pid) with
  | none => (.itemMissing, cart)
  | some _ =>
    if new_quantity ≤ 0 then
      (.removedItem, ⟨cart.items.filter (fun it => !(it.productId == pid))⟩)
    else
      match findProduct db pid with
      | none => (.itemMissing, cart)
      | some p =>
        if p.quantity_in_stock < new_quantity then
          (.onlyAvailable p.quantity_in_stock, cart)
        else
          (.updated, ⟨cart.items.map (fun it =>
            if it.productId == pid then { it with quantity := new_quantity.toNat }
            else it)⟩)

/-- The `remove_from_cart` view (`views.py` lines 483-496): delete the cart
line for the given product. -/
def remove_from_cart (cart : Cart) (pid : Nat) : Cart :=
  ⟨cart.items.filter (fun it => !(it.productId == pid))⟩

/-- The verified-purchase test of `add_review` (`views.py` lines 161-164):
`OrderItem.objects.filter(order__buyer=request.user, product=product)
.exists()` — an order item of any order of this buyer references the
product; the query places no condition on the order's status. -/
def has_purchased (db : DB) (user pid : Nat) : Bool :=
  db.orderItems.any (fun oi =>
    oi.productId == pid &&
    db.orders.any (fun o => o.order_id == oi.orderId && o.buyer == user))

/-- Modelled from the spec (for comparison with `has_purchased`, which is
what the source computes): "verified = true iff an OrderItem exists linking
author's completed order to this product" — the same join, additionally
requiring the linked order's status to be `"completed"`. -/
def has_completed_purchase (db : DB) (user pid : Nat) : Bool :=
  db.orderItems.any (fun oi =>
    oi.productId == pid &&
    db.orders.any (fun o =>
      o.order_id == oi.orderId && o.buyer == user && o.status == "completed"))

/-- Result of the `add_review` view, as surfaced to the reviewer. -/
inductive AddReviewResult where
  /-- The product id does not name a product (`get_object_or_404`). -/
  | productMissing
  /-- `You have already reviewed this product.` -/
  | duplicate
  /-- `Your review has been added successfully!` -/
  | created
deriving DecidableEq, Repr

/-- The `add_review` view (`views.py` lines 138-171), translated line by
line: resolve the product; reject when this buyer already has a review of
it, leaving the store untouched; otherwise create the review with
`is_verified` set from the purchase test. The authenticated-buyer guard and
form validation are preconditions of the callers modelled here. -/
def add_review (db : DB) (user pid rating : Nat) (comment : String) :
    AddReviewResult × DB :=
  match findProduct db pid with
  | none => (.productMissing, db)
  | some _ =>
    if db.reviews.any (fun r => r.productId == pid && r.buyer == user) then
      (.duplicate, db)
    else
      (.created, { db with reviews := db.reviews ++
        [⟨pid, user, rating, comment, has_purchased db user pid⟩] })

/-- The `edit_product` view (`views.py` lines 303-317): the product form
saves the product's own columns (`name`, `category`, `description`,
`price`, `quantity_in_stock`, `image`); no other table is written. The
vendor-ownership guard is a precondition of the callers modelled here. -/
def edit_product (db : DB) (pid : Nat) (newName : String) (newPrice : Nat)
    (newStock : Int) : DB :=
  { db with products := db.products.map (fun p =>
      if p.id == pid then
        { p with name := newName, price := newPrice, quantity_in_stock := newStock }
      else p) }

/-- The `order_detail` view (`views.py` lines 596-601):
`get_object_or_404(Order, order_id=order_id, buyer=request.user)` — the
order is found only when both the identifier and the buyer match; any
mismatch raises the same not-found response (`none`). -/
def order_detail (db : DB) (user oid : Nat) : Option Order :=
  db.orders.find? (fun o => o.order_id == oid && o.buyer == user)

/-- The `order_confirmation` view (`views.py` lines 566-571): the same
buyer-scoped lookup as `order_detail`. -/
def order_confirmation (db : DB) (user oid : Nat) : Option Order :=
  db.orders.find? (fun o => o.order_id == oid && o.buyer == user)

/-- A world: the relational store plus the per-session carts
(`Cart.objects.get_or_create(session_key=...)`). -/
structure World where
  db : DB
  carts : List (Nat × Cart)
deriving DecidableEq, Repr

/-- Resolve the session's cart, an empty one when none exists yet
(`get_or_create_cart`). -/
def getCart (w : World) (sk : Nat) : Cart :=
  (((w.carts.find? (fun c => c.1 == sk)).map Prod.snd)).getD ⟨[]⟩

/-- Store the session's cart back. -/
def setCart (w : World) (sk : Nat) (cart : Cart) : World :=
  if w.carts.any (fun c => c.1 == sk) then
    { w with carts := w.carts.map (fun c => if c.1 == sk then (sk, cart) else c) }
  else
    { w with carts := w.carts ++ [(sk, cart)] }

/-- Delete the session's cart (`cart.delete()` at successful checkout). -/
def delCart (w : World) (sk : Nat) : World :=
  { w with carts := w.carts.filter (fun c => !(c.1 == sk)) }

/-- One serialized shopper request against the application: a cart
add/update/remove or a checkout. -/
inductive Op where
  | opAdd (sk pid qty : Nat)
  | opUpdate (sk pid : Nat) (newQty : Int)
  | opRemove (sk pid : Nat)
  | opCheckout (sk buyer : Nat) (shipping : Option String)
deriving DecidableEq, Repr

/-- Execute one request against the world, dispatching to the embedded
view handlers. -/
def step (w : World) : Op → World
  | .opAdd sk pid qty =>
    setCart w sk (add_to_cart w.db (getCart w sk) pid qty).2
  | .opUpdate sk pid q =>
    setCart w sk (update_cart_item w.db (getCart w sk) pid q).2
  | .opRemove sk pid =>
    setCart w sk (remove_from_cart (getCart w sk) pid)
  | .opCheckout sk buyer shipping =>
    match checkout w.db (getCart w sk) buyer shipping with
    | (_, db2, some cart2) => setCart { w with db := db2 } sk cart2
    | (_, db2, none) => delCart { w with db := db2 } sk

/-- Execute a serialized sequence of requests. -/
def run (w : World) (ops : List Op) : World :=
  ops.foldl step w

/-- Every product in the store has non-negative stock. -/
def stocksNonneg (db : DB) : Prop :=
  ∀ p ∈ db.products, 0 ≤ p.quantity_in_stock

instance (db : DB) : Decidable (stocksNonneg db) := by
  unfold stocksNonneg; infer_instance

/-- The order line the checkout loop creates for a cart item: quantity from
the line, `price_at_purchase` frozen to the product's current price. -/
def mkOrderItem (db : DB) (oid : Nat) (it : CartItem) : OrderItem :=
  ⟨oid, it.productId, it.quantity, priceAt db it.productId⟩

/-- Sum over cart items of current product price × quantity. -/
def cartItemsTotal (db : DB) (items : List CartItem) : Nat :=
  (items.map (fun it => priceAt db it.productId * it.quantity)).sum

/-- The stock check of the checkout loop, read off the current store: the
line's requested quantity exceeds its product's stock. -/
def itemInsufficient (db : DB) (it : CartItem) : Bool :=
  match findProduct db it.productId with
  | some p => p.quantity_in_stock < (it.quantity : Int)
  | none => false

/-- A cart line references an existing, active product with stock covering
the requested quantity. -/
def itemPurchasable (db : DB) (it : CartItem) : Bool :=
  match findProduct db it.productId with
  | some p => p.is_active && decide ((it.quantity : Int) ≤ p.quantity_in_stock)
  | none => false

lemma find?_congrOn {α : Type} {f g : α → Bool} (l : List α)
    (hfg : ∀ a ∈ l, f a = g a) : l.find? f = l.find? g := by
  induction l with
  | nil => rfl
  | cons b tl ih =>
    have hb : f b = g b := hfg b (List.mem_cons_self b tl)
    have htl : tl.find? f = tl.find? g :=
      ih fun a ha => hfg a (List.mem_cons_of_mem b ha)
    by_cases hfb : f b = true
    · rw [List.find?_cons_of_pos _ hfb, List.find?_cons_of_pos _ (hb ▸ hfb)]
    · rw [List.find?_cons_of_neg _ (by simpa using hfb),
        List.find?_cons_of_neg _ (by rw [← hb]; simpa using hfb), htl]

lemma takeWhile_congrOn {α : Type} {f g : α → Bool} (l : List α)
    (hfg : ∀ a ∈ l, f a = g a) : l.takeWhile f = l.takeWhile g := by
  induction l with
  | nil => rfl
  | cons b tl ih =>
    have hb : f b = g b := hfg b (List.mem_cons_self b tl)
    have htl : tl.takeWhile f = tl.takeWhile g :=
      ih fun a ha => hfg a (List.mem_cons_of_mem b ha)
    rw [List.takeWhile_cons, List.takeWhile_cons, ← hb, htl]

lemma findP_setStock (ps : List Product) (pid : Nat) (v : Int) (pid' : Nat) :
    findP (setStock ps pid v) pid' =
      (findP ps pid').map (fun p =>
        if p.id == pid then { p with quantity_in_stock := v } else p) := by
  unfold setStock findP
  rw [List.find?_map]
  congr 1
  apply find?_congrOn
  intro p _
  by_cases h : (p.id == pid) = true <;> simp [Function.comp, h]

lemma findP_setStock_ne (ps : List Product) (pid pid' : Nat) (v : Int)
    (h : pid' ≠ pid) : findP (setStock ps pid v) pid' = findP ps pid' := by
  rw [findP_setStock]
  cases hf : findP ps pid' with
  | none => rfl
  | some p =>
    have hp : (p.id == pid') = true := by
      simpa [findP] using List.find?_some hf
    have : p.id ≠ pid := by
      rw [beq_iff_eq] at hp
      rw [hp]
      exact h
    simp [this]

lemma findP_setStock_self (ps : List Product) (pid : Nat) (v : Int) :
    findP (setStock ps pid v) pid =
      (findP ps pid).map (fun p => { p with quantity_in_stock := v }) := by
  rw [findP_setStock]
  cases hf : findP ps pid with
  | none => rfl
  | some p =>
    have hp : p.id = pid := by
      simpa [findP] using List.find?_some hf
    simp [hp]

lemma priceAtL_setStock (ps : List Product) (pid pid' : Nat) (v : Int) :
    priceAtL (setStock ps pid v) pid' = priceAtL ps pid' := by
  unfold priceAtL
  rw [findP_setStock]
  cases findP ps pid' with
  | none => rfl
  | some p =>
    by_cases h : p.id = pid
    · simp [h]
    · simp [h]

lemma priceAt_of_find (db : DB) (pid : Nat) (p : Product)
    (h : findProduct db pid = some p) : priceAt db pid = p.price := by
  unfold findProduct at h
  unfold priceAt priceAtL
  rw [h]
  rfl

lemma stockAt_of_find (db : DB) (pid : Nat) (p : Product)
    (h : findProduct db pid = some p) : stockAt db pid = p.quantity_in_stock := by
  unfold findProduct at h
  unfold stockAt stockAtL
  rw [h]
  rfl

lemma get_total_price_eq_cartItemsTotal (db : DB) (cart : Cart)
    (hact : ∀ it ∈ cart.items, itemPurchasable db it = true) :
    get_total_price db cart = cartItemsTotal db cart.items := by
  unfold get_total_price cartItemsTotal
  congr 1
  apply List.map_congr_left
  intro it hit
  have h := hact it hit
  unfold itemPurchasable at h
  cases hf : findProduct db it.productId with
  | none => rw [hf] at h; exact absurd h (by simp)
  | some p =>
    rw [hf] at h
    simp only [Bool.and_eq_true] at h
    simp [h.1, priceAt_of_find db it.productId p hf]

/-! Concrete states used to exercise the theorems below. -/

/-- A store with one well-stocked product, as in the spec's success
scenario: Product A, price 10.00, stock 100. -/
def exDb : DB :=
  ⟨[⟨1, 1, "Product A", 1000, 100, true⟩], [], [], [], 1⟩

/-- A cart holding quantity 2 of Product A. -/
def exCart : Cart :=
  ⟨[⟨1, 2⟩]⟩

/-- A store with one scarce product, as in the spec's failure scenario:
Product B, stock 1. -/
def cxDb : DB :=
  ⟨[⟨2, 1, "Product B", 500, 1, true⟩], [], [], [], 1⟩

/-- A cart requesting quantity 2 of Product B (stock 1). -/
def cxCart : Cart :=
  ⟨[⟨2, 2⟩]⟩

/-- A store with a well-stocked Product A and the scarce Product B, for the
two-line failure scenario. -/
def cx2Db : DB :=
  ⟨[⟨1, 1, "Product A", 1000, 100, true⟩, ⟨2, 1, "Product B", 500, 1, true⟩],
   [], [], [], 1⟩

/-- A cart requesting quantity 2 of Product A and then quantity 2 of
Product B (stock 1). -/
def cx2Cart : Cart :=
  ⟨[⟨1, 2⟩, ⟨2, 2⟩]⟩

/-- A store with one product of stock 5, for the cart-update scenarios. -/
def c7Db : DB :=
  ⟨[⟨1, 1, "Widget", 500, 5, true⟩], [], [], [], 1⟩

/-- A cart holding one line of quantity 1 on the stock-5 product. -/
def c7Cart : Cart :=
  ⟨[⟨1, 1⟩]⟩

/-- A store where buyer 5 has a *pending* (not completed) order containing
product 1, and no reviews yet. -/
def c8Db : DB :=
  ⟨[⟨1, 1, "Gadget", 1000, 5, true⟩],
   [⟨1, 5, 1000, "123 Main St", "pending"⟩],
   [⟨1, 1, 1, 1000⟩], [], 2⟩

/-- A store where buyer 5 already reviewed product 1. -/
def c9Db : DB :=
  ⟨[⟨1, 1, "Gadget", 1000, 5, true⟩], [], [],
   [⟨1, 5, 4, "good", false⟩], 1⟩

/-- A store holding one order, owned by buyer 5. -/
def c10Db : DB :=
  ⟨[], [⟨1, 5, 1000, "123 Main St", "pending"⟩], [], [], 2⟩

/-- C5: for every cart with no items, `finalize_checkout` always fails with
`EmptyCartError` (the `Your cart is empty` rejection) and never creates an
Order — the store is returned unchanged and the cart survives. -/
theorem checkout_empty_cart_rejected (db : DB) (cart : Cart) (buyer : Nat)
    (shipping : Option String) (h : cart.items = []) :
    checkout db cart buyer shipping = (.emptyCart, db, some cart) := by
  simp [checkout, h]

/-- Witness for `checkout_empty_cart_rejected` at an empty cart: the store
is untouched, so in particular no order is created. -/
theorem checkout_empty_cart_rejected_witness :
    checkout exDb ⟨[]⟩ 7 (some "123 Main St") = (.emptyCart, exDb, some ⟨[]⟩) :=
  checkout_empty_cart_rejected exDb ⟨[]⟩ 7 (some "123 Main St") rfl

/-- C6: editing a product (any new name, price and stock) writes only the
product table: the order-item table — and with it every stored
`price_at_purchase` — and the order table are left unchanged. -/
theorem edit_product_preserves_order_items (db : DB) (pid : Nat)
    (newName : String) (newPrice : Nat) (newStock : Int) :
    (edit_product db pid newName newPrice newStock).orderItems = db.orderItems ∧
    (edit_product db pid newName newPrice newStock).orders = db.orders ∧
    (edit_product db pid newName newPrice newStock).orderItems.map
        OrderItem.price_at_purchase = db.orderItems.map OrderItem.price_at_purchase := by
  exact ⟨rfl, rfl, rfl⟩

/-- C10: the order-detail and order-confirmation lookups return an order
only when its buyer is the requesting user (and its identifier matches);
when every order with the requested identifier belongs to someone else, both
return the same not-found outcome as for a nonexistent identifier. -/
theorem order_views_owner_only (db : DB) (user oid : Nat) :
    (∀ o, order_detail db user oid = some o → o.buyer = user ∧ o.order_id = oid) ∧
    (∀ o, order_confirmation db user oid = some o → o.buyer = user ∧ o.order_id = oid) ∧
    ((∀ o ∈ db.orders, o.order_id = oid → o.buyer ≠ user) →
      order_detail db user oid = none ∧ order_confirmation db user oid = none) := by
  refine ⟨?_, ?_, ?_⟩
  · intro o h
    have := List.find?_some h
    simp only [Bool.and_eq_true, beq_iff_eq] at this
    exact ⟨this.2, this.1⟩
  · intro o h
    have := List.find?_some h
    simp only [Bool.and_eq_true, beq_iff_eq] at this
    exact ⟨this.2, this.1⟩
  · intro h
    have hnone : db.orders.find?
        (fun o => o.order_id == oid && o.buyer == user) = none := by
      rw [List.find?_eq_none]
      intro o ho
      simp only [Bool.and_eq_true, beq_iff_eq, not_and]
      intro h1 h2
      exact absurd h2 (h o ho h1)
    exact ⟨hnone, hnone⟩

/-- Witness for `order_views_owner_only`: user 9 requesting order 1, which
belongs to buyer 5, gets not-found from both views. -/
theorem order_views_owner_only_witness :
    order_detail c10Db 9 1 = none ∧ order_confirmation c10Db 9 1 = none :=
  (order_views_owner_only c10Db 9 1).2.2 (by decide)

/-- C9: when the author already has a review of the product, `add_review`
rejects with the duplicate-review warning and returns the store untouched:
no second review appears and the original review is unmodified. -/
theorem add_review_duplicate_rejected (db : DB) (user pid rating : Nat)
    (comment : String) (p : Product) (hp : findProduct db pid = some p)
    (hdup : db.reviews.any (fun r => r.productId == pid && r.buyer == user) = true) :
    add_review db user pid rating comment = (.duplicate, db) := by
  simp [add_review, hp, hdup]

/-- Witness for `add_review_duplicate_rejected`: buyer 5 already reviewed
product 1 in `c9Db`; a second review attempt changes nothing. -/
theorem add_review_duplicate_rejected_witness :
    add_review c9Db 5 1 5 "even better" = (.duplicate, c9Db) :=
  add_review_duplicate_rejected c9Db 5 1 5 "even better"
    ⟨1, 1, "Gadget", 1000, 5, true⟩ (by decide) (by decide)

/-- C8 (amended): on a first review, `add_review` creates the review with
`is_verified` computed by `has_purchased`, which holds iff an OrderItem
links ANY order of the author — regardless of the order's status — to the
product; the source query has no completed-status condition. -/
theorem review_verified_from_any_purchase (db : DB) (user pid rating : Nat)
    (comment : String) (p : Product) (hp : findProduct db pid = some p)
    (hnew : db.reviews.any (fun r => r.productId == pid && r.buyer == user) = false) :
    add_review db user pid rating comment =
      (.created, { db with reviews := db.reviews ++
        [⟨pid, user, rating, comment, has_purchased db user pid⟩] }) ∧
    (has_purchased db user pid = true ↔
      ∃ oi ∈ db.orderItems, oi.productId = pid ∧
        ∃ o ∈ db.orders, o.order_id = oi.orderId ∧ o.buyer = user) := by
  constructor
  · simp [add_review, hp, hnew]
  · simp only [has_purchased, List.any_eq_true, Bool.and_eq_true, beq_iff_eq]

/-- Witness for `review_verified_from_any_purchase`: buyer 5's first review
of product 1 in `c8Db` is created verified, since an order item of buyer 5's
(pending) order references product 1. -/
theorem review_verified_from_any_purchase_witness :
    add_review c8Db 5 1 4 "ok" =
      (.created, { c8Db with reviews := c8Db.reviews ++
        [⟨1, 5, 4, "ok", has_purchased c8Db 5 1⟩] }) :=
  (review_verified_from_any_purchase c8Db 5 1 4 "ok"
    ⟨1, 1, "Gadget", 1000, 5, true⟩ (by decide) (by decide)).1

/-- C8 counterexample: in `c8Db` buyer 5 has only a `"pending"` order
containing product 1 — no completed one — yet the review `add_review`
creates carries `is_verified = true`. The claim's "verified iff a completed
order exists" is false on the code. -/
theorem review_verified_without_completed_order_cex :
    (add_review c8Db 5 1 4 "ok").2.reviews = [⟨1, 5, 4, "ok", true⟩] ∧
    has_completed_purchase c8Db 5 1 = false := by
  decide

lemma update_cart_remove_spec (db : DB) (cart : Cart) (pid : Nat) (qn : Int)
    (it0 : CartItem)
    (hfind : cart.items.find? (fun it => it.productId == pid) = some it0)
    (hqn : qn ≤ 0) :
    update_cart_item db cart pid qn =
      (.removedItem, ⟨cart.items.filter (fun it => !(it.productId == pid))⟩) := by
  simp [update_cart_item, hfind, hqn]

lemma update_cart_reject_spec (db : DB) (cart : Cart) (pid : Nat) (qn : Int)
    (it0 : CartItem) (p : Product)
    (hfind : cart.items.find? (fun it => it.productId == pid) = some it0)
    (hp : findProduct db pid = some p) (hpos : 0 < qn)
    (hlt : p.quantity_in_stock < qn) :
    update_cart_item db cart pid qn = (.onlyAvailable p.quantity_in_stock, cart) := by
  simp [update_cart_item, hfind, not_le.mpr hpos, hp, hlt]

lemma update_cart_save_spec (db : DB) (cart : Cart) (pid : Nat) (qn : Int)
    (it0 : CartItem) (p : Product)
    (hfind : cart.items.find? (fun it => it.productId == pid) = some it0)
    (hp : findProduct db pid = some p) (hpos : 0 < qn)
    (hle : qn ≤ p.quantity_in_stock) :
    update_cart_item db cart pid qn =
      (.updated, ⟨cart.items.map (fun it =>
        if it.productId == pid then { it with quantity := qn.toNat } else it)⟩) := by
  simp [update_cart_item, hfind, not_le.mpr hpos, hp, not_lt.mpr hle]

lemma add_to_cart_reject_spec (db : DB) (cart : Cart) (pid q : Nat) (p : Product)
    (hp : findProductActive db pid = some p)
    (hbad : p.quantity_in_stock ≤ 0 ∨ p.quantity_in_stock < (q : Int)) :
    add_to_cart db cart pid q = (.insufficientStock, cart) := by
  rcases hbad with hz | hlt
  · have hz' : is_in_stock p = false := by
      simp [is_in_stock, not_lt.mpr hz]
    simp [add_to_cart, hp, hz']
  · simp [add_to_cart, hp, hlt]

lemma add_to_cart_create_spec (db : DB) (cart : Cart) (pid q : Nat) (p : Product)
    (hp : findProductActive db pid = some p) (hpos : 0 < p.quantity_in_stock)
    (hle : (q : Int) ≤ p.quantity_in_stock)
    (hnone : cart.items.find? (fun it => it.productId == pid) = none) :
    add_to_cart db cart pid q = (.added, ⟨cart.items ++ [⟨pid, q⟩]⟩) := by
  have hin : is_in_stock p = true := by simpa [is_in_stock] using hpos
  simp [add_to_cart, hp, hin, not_lt.mpr hle, hnone]

lemma add_to_cart_increment_spec (db : DB) (cart : Cart) (pid q : Nat)
    (p : Product) (it0 : CartItem)
    (hp : findProductActive db pid = some p) (hpos : 0 < p.quantity_in_stock)
    (hle : (q : Int) ≤ p.quantity_in_stock)
    (hfind : cart.items.find? (fun it => it.productId == pid) = some it0) :
    add_to_cart db cart pid q = (.added, ⟨cart.items.map (fun it =>
      if it.productId == pid then
        { it with quantity :=
            if p.quantity_in_stock < ((it.quantity + q : Nat) : Int) then
              p.quantity_in_stock.toNat
            else it.quantity + q }
      else it)⟩) := by
  have hin : is_in_stock p = true := by simpa [is_in_stock] using hpos
  simp [add_to_cart, hp, hin, not_lt.mpr hle, hfind]

lemma add_to_cart_respects_stock (db : DB) (cart : Cart) (pid q : Nat)
    (p : Product) (r : AddToCartResult) (cart' : Cart)
    (hp : findProductActive db pid = some p) (hpos : 0 < p.quantity_in_stock)
    (hle : (q : Int) ≤ p.quantity_in_stock)
    (hrun : add_to_cart db cart pid q = (r, cart')) :
    ∀ it' ∈ cart'.items, it'.productId = pid →
      (it'.quantity : Int) ≤ p.quantity_in_stock := by
  intro it' hmem hpid
  cases hfind : cart.items.find? (fun it => it.productId == pid) with
  | none =>
    have heq := add_to_cart_create_spec db cart pid q p hp hpos hle hfind
    rw [hrun] at heq
    have hc : cart' = ⟨cart.items ++ [⟨pid, q⟩]⟩ := congrArg Prod.snd heq
    subst hc
    rcases List.mem_append.mp hmem with hold | hnew
    · have := List.find?_eq_none.mp hfind it' hold
      simp [hpid] at this
    · have hit : it' = ⟨pid, q⟩ := by simpa using hnew
      subst hit
      exact hle
  | some it0 =>
    have heq := add_to_cart_increment_spec db cart pid q p it0 hp hpos hle hfind
    rw [hrun] at heq
    have hc : cart' = ⟨cart.items.map (fun it =>
        if it.productId == pid then
          { it with quantity :=
              if p.quantity_in_stock < ((it.quantity + q : Nat) : Int) then
                p.quantity_in_stock.toNat
              else it.quantity + q }
        else it)⟩ := congrArg Prod.snd heq
    subst hc
    simp only [List.mem_map] at hmem
    rcases hmem with ⟨it, hit, heq'⟩
    by_cases hcond : (it.productId == pid) = true
    · rw [if_pos hcond] at heq'
      subst heq'
      by_cases hcl : p.quantity_in_stock < ((it.quantity + q : Nat) : Int)
      · simp only [hcl, if_true]
        rw [Int.toNat_of_nonneg (le_of_lt hpos)]
      · simp only [hcl, if_false]
        exact not_lt.mp hcl
    · rw [if_neg hcond] at heq'
      subst heq'
      simp [hpid] at hcond

lemma update_cart_respects_stock (db : DB) (cart : Cart) (pid : Nat) (qn : Int)
    (p : Product) (cart' : Cart)
    (hp : findProduct db pid = some p) (hpos : 0 < qn)
    (hle : qn ≤ p.quantity_in_stock)
    (hrun : update_cart_item db cart pid qn = (.updated, cart')) :
    ∀ it' ∈ cart'.items, it'.productId = pid →
      (it'.quantity : Int) ≤ p.quantity_in_stock := by
  intro it' hmem hpid
  cases hfind : cart.items.find? (fun it => it.productId == pid) with
  | none =>
    rw [update_cart_item.eq_def] at hrun
    rw [hfind] at hrun
    exact absurd (congrArg Prod.fst hrun) (by simp)
  | some it0 =>
    have heq := update_cart_save_spec db cart pid qn it0 p hfind hp hpos hle
    rw [hrun] at heq
    have hc : cart' = ⟨cart.items.map (fun it =>
        if it.productId == pid then { it with quantity := qn.toNat } else it)⟩ :=
      congrArg Prod.snd heq
    subst hc
    simp only [List.mem_map] at hmem
    rcases hmem with ⟨it, hit, heq'⟩
    by_cases hcond : (it.productId == pid) = true
    · rw [if_pos hcond] at heq'
      subst heq'
      simpa [Int.toNat_of_nonneg (le_of_lt hpos)] using hle
    · rw [if_neg hcond] at heq'
      subst heq'
      simp [hpid] at hcond

/-- C7 (amended): the cart mutation contract as the code implements it.
`add_to_cart` rejects — rather than clamping — when the product is out of
stock or the requested quantity exceeds stock; otherwise it creates a fresh
line with the requested quantity, or increments an existing line and clamps
the result down to stock. `update_cart_item` deletes the line when the
requested quantity is ≤ 0 and rejects — leaving the line unchanged, rather
than clamping and saving — when it exceeds stock; otherwise it saves the
requested quantity. After any successful add or update, the affected line's
quantity is at most the product's current stock. -/
theorem cart_quantity_clamping (db : DB) (cart : Cart) (pid q : Nat) (qn : Int) :
    (∀ it0, cart.items.find? (fun it => it.productId == pid) = some it0 →
      qn ≤ 0 →
      update_cart_item db cart pid qn =
        (.removedItem, ⟨cart.items.filter (fun it => !(it.productId == pid))⟩)) ∧
    (∀ it0 p, cart.items.find? (fun it => it.productId == pid) = some it0 →
      findProduct db pid = some p → 0 < qn → p.quantity_in_stock < qn →
      update_cart_item db cart pid qn = (.onlyAvailable p.quantity_in_stock, cart)) ∧
    (∀ it0 p, cart.items.find? (fun it => it.productId == pid) = some it0 →
      findProduct db pid = some p → 0 < qn → qn ≤ p.quantity_in_stock →
      update_cart_item db cart pid qn =
        (.updated, ⟨cart.items.map (fun it =>
          if it.productId == pid then { it with quantity := qn.toNat } else it)⟩)) ∧
    (∀ p, findProductActive db pid = some p →
      (p.quantity_in_stock ≤ 0 ∨ p.quantity_in_stock < (q : Int)) →
      add_to_cart db cart pid q = (.insufficientStock, cart)) ∧
    (∀ p, findProductActive db pid = some p →
      0 < p.quantity_in_stock → (q : Int) ≤ p.quantity_in_stock →
      cart.items.find? (fun it => it.productId == pid) = none →
      add_to_cart db cart pid q = (.added, ⟨cart.items ++ [⟨pid, q⟩]⟩)) ∧
    (∀ p it0, findProductActive db pid = some p →
      0 < p.quantity_in_stock → (q : Int) ≤ p.quantity_in_stock →
      cart.items.find? (fun it => it.productId == pid) = some it0 →
      add_to_cart db cart pid q = (.added, ⟨cart.items.map (fun it =>
        if it.productId == pid then
          { it with quantity :=
              if p.quantity_in_stock < ((it.quantity + q : Nat) : Int) then
                p.quantity_in_stock.toNat
              else it.quantity + q }
        else it)⟩)) ∧
    (∀ p r cart', findProductActive db pid = some p →
      0 < p.quantity_in_stock → (q : Int) ≤ p.quantity_in_stock →
      add_to_cart db cart pid q = (r, cart') →
      ∀ it' ∈ cart'.items, it'.productId = pid →
        (it'.quantity : Int) ≤ p.quantity_in_stock) ∧
    (∀ p cart', findProduct db pid = some p →
      0 < qn → qn ≤ p.quantity_in_stock →
      update_cart_item db cart pid qn = (.updated, cart') →
      ∀ it' ∈ cart'.items, it'.productId = pid →
        (it'.quantity : Int) ≤ p.quantity_in_stock) :=
  ⟨fun it0 h1 h2 => update_cart_remove_spec db cart pid qn it0 h1 h2,
   fun it0 p h1 h2 h3 h4 => update_cart_reject_spec db cart pid qn it0 p h1 h2 h3 h4,
   fun it0 p h1 h2 h3 h4 => update_cart_save_spec db cart pid qn it0 p h1 h2 h3 h4,
   fun p h1 h2 => add_to_cart_reject_spec db cart pid q p h1 h2,
   fun p h1 h2 h3 h4 => add_to_cart_create_spec db cart pid q p h1 h2 h3 h4,
   fun p it0 h1 h2 h3 h4 => add_to_cart_increment_spec db cart pid q p it0 h1 h2 h3 h4,
   fun p r cart' h1 h2 h3 h4 => add_to_cart_respects_stock db cart pid q p r cart' h1 h2 h3 h4,
   fun p cart' h1 h2 h3 h4 => update_cart_respects_stock db cart pid qn p cart' h1 h2 h3 h4⟩

/-- Witness for `cart_quantity_clamping` on the stock-5 product: an update
to quantity 3 is saved, and an update to quantity 10 is rejected with
`Only 5 items available`, not clamped. -/
theorem cart_quantity_clamping_witness :
    update_cart_item c7Db c7Cart 1 3 = (.updated, ⟨[⟨1, 3⟩]⟩) ∧
    update_cart_item c7Db c7Cart 1 10 = (.onlyAvailable 5, c7Cart) :=
  ⟨(cart_quantity_clamping c7Db c7Cart 1 0 3).2.2.1 ⟨1, 1⟩
      ⟨1, 1, "Widget", 500, 5, true⟩ (by decide) (by decide) (by decide) (by decide),
   (cart_quantity_clamping c7Db c7Cart 1 0 10).2.1 ⟨1, 1⟩
      ⟨1, 1, "Widget", 500, 5, true⟩ (by decide) (by decide) (by decide) (by decide)⟩

/-- C7 counterexample: the claim says `update_item` with a quantity above
stock clamps to stock and saves — on the stock-5 product, updating the
quantity-1 line to 10 would leave quantity 5. The code instead rejects the
request and leaves the line at quantity 1. -/
theorem cart_update_does_not_clamp_cex :
    update_cart_item c7Db c7Cart 1 10 = (.onlyAvailable 5, c7Cart) ∧
    (update_cart_item c7Db c7Cart 1 10).2.items.map CartItem.quantity = [1] ∧
    (update_cart_item c7Db c7Cart 1 10).2.items.map CartItem.quantity ≠ [5] := by
  decide

lemma stocksNonneg_setStock (ps : List Product) (pid : Nat) (v : Int)
    (h : ∀ p ∈ ps, 0 ≤ p.quantity_in_stock) (hv : 0 ≤ v) :
    ∀ p ∈ setStock ps pid v, 0 ≤ p.quantity_in_stock := by
  intro p hp
  simp only [setStock, List.mem_map] at hp
  rcases hp with ⟨r, hr, heq⟩
  by_cases hc : (r.id == pid) = true
  · rw [if_pos hc] at heq
    subst heq
    exact hv
  · rw [if_neg hc] at heq
    subst heq
    exact h r hr

lemma stocksNonneg_processCartItems (oid : Nat) (items : List CartItem) (db : DB)
    (h : stocksNonneg db) :
    stocksNonneg (processCartItems oid db items).db := by
  induction items generalizing db with
  | nil => simpa [processCartItems, ItemsOutcome.db]
  | cons it rest ih =>
    rw [processCartItems]
    cases hf : findProduct db it.productId with
    | none => simpa [ItemsOutcome.db]
    | some p =>
      dsimp only
      by_cases hle : (it.quantity : Int) ≤ p.quantity_in_stock
      · rw [if_pos hle]
        apply ih
        intro r hr
        refine stocksNonneg_setStock db.products it.productId
          (p.quantity_in_stock - (it.quantity : Int)) h ?_ r hr
        omega
      · rw [if_neg hle]
        simpa [ItemsOutcome.db]

lemma stocksNonneg_checkout (db : DB) (cart : Cart) (buyer : Nat)
    (shipping : Option String) (h : stocksNonneg db) :
    stocksNonneg (checkout db cart buyer shipping).2.1 := by
  rw [checkout.eq_def]
  by_cases he : cart.items.isEmpty
  · simpa [he]
  · rw [if_neg he]
    cases shipping with
    | none => simpa
    | some addr =>
      dsimp only
      have h1 : stocksNonneg { db with
          orders := db.orders ++ [newOrder db buyer cart addr]
          nextOrderId := db.nextOrderId + 1 } := h
      have h2 := stocksNonneg_processCartItems (newOrder db buyer cart addr).order_id
        cart.items _ h1
      cases hpo : processCartItems (newOrder db buyer cart addr).order_id
          { db with
            orders := db.orders ++ [newOrder db buyer cart addr]
            nextOrderId := db.nextOrderId + 1 } cart.items with
      | ok db2 => rw [hpo] at h2; simpa [ItemsOutcome.db] using h2
      | stockFail pid db2 => rw [hpo] at h2; simpa [ItemsOutcome.db] using h2
      | missingProduct pid db2 => rw [hpo] at h2; simpa [ItemsOutcome.db] using h2

lemma db_setCart (w : World) (sk : Nat) (c : Cart) : (setCart w sk c).db = w.db := by
  rw [setCart]
  split <;> rfl

lemma db_delCart (w : World) (sk : Nat) : (delCart w sk).db = w.db := rfl

lemma stocksNonneg_step (w : World) (op : Op) (h : stocksNonneg w.db) :
    stocksNonneg (step w op).db := by
  cases op with
  | opAdd sk pid qty => rw [step, db_setCart]; exact h
  | opUpdate sk pid qn => rw [step, db_setCart]; exact h
  | opRemove sk pid => rw [step, db_setCart]; exact h
  | opCheckout sk buyer shipping =>
    have hc := stocksNonneg_checkout w.db (getCart w sk) buyer shipping h
    rw [step]
    rcases hck : checkout w.db (getCart w sk) buyer shipping with ⟨r, db2, oc⟩
    rw [hck] at hc
    cases oc with
    | none => simpa [db_delCart] using hc
    | some c2 => simpa [db_setCart] using hc

/-- C4: under serialized execution, every sequence of cart add/update/remove
and checkout operations preserves non-negativity of every product's stock —
checkout only decrements a product's stock when the freshly-read stock
covers the purchased quantity, and no other operation writes stock. -/
theorem stock_nonneg_invariant (w : World) (ops : List Op)
    (h : stocksNonneg w.db) : stocksNonneg (run w ops).db := by
  induction ops generalizing w with
  | nil => simpa [run]
  | cons op rest ih =>
    rw [run, List.foldl_cons]
    exact ih (step w op) (stocksNonneg_step w op h)

/-- Witness for `stock_nonneg_invariant`: starting from the stock-100 store,
an add-to-cart followed by a successful checkout of quantity 2 (and a
further checkout attempt on the deleted cart) leaves all stocks ≥ 0. -/
theorem stock_nonneg_invariant_witness :
    stocksNonneg exDb ∧
    stocksNonneg (run ⟨exDb, []⟩
      [.opAdd 1 1 2, .opCheckout 1 7 (some "123 Main St"),
       .opCheckout 1 7 (some "123 Main St")]).db :=
  ⟨by decide, stock_nonneg_invariant ⟨exDb, []⟩
    [.opAdd 1 1 2, .opCheckout 1 7 (some "123 Main St"),
     .opCheckout 1 7 (some "123 Main St")] (by decide)⟩

lemma itemInsufficient_congr (db db' : DB) (it : CartItem)
    (h : findProduct db' it.productId = findProduct db it.productId) :
    itemInsufficient db' it = itemInsufficient db it := by
  unfold itemInsufficient
  rw [h]

lemma stockAt_congr (db db' : DB) (pid : Nat)
    (h : findProduct db' pid = findProduct db pid) :
    stockAt db' pid = stockAt db pid := by
  unfold findProduct at h
  unfold stockAt stockAtL
  rw [h]

lemma priceAt_congr (db db' : DB) (pid : Nat)
    (h : findProduct db' pid = findProduct db pid) :
    priceAt db' pid = priceAt db pid := by
  unfold findProduct at h
  unfold priceAt priceAtL
  rw [h]

lemma processCartItems_ok_spec (oid : Nat) (items : List CartItem) :
    ∀ (db : DB),
    (items.map CartItem.productId).Nodup →
    (∀ it ∈ items, (findProduct db it.productId).isSome = true) →
    (∀ it ∈ items, itemInsufficient db it = false) →
    ∃ db2, processCartItems oid db items = .ok db2 ∧
      db2.orders = db.orders ∧
      db2.reviews = db.reviews ∧
      db2.nextOrderId = db.nextOrderId ∧
      db2.orderItems = db.orderItems ++ items.map (mkOrderItem db oid) ∧
      (∀ pid, pid ∉ items.map CartItem.productId →
        findProduct db2 pid = findProduct db pid) ∧
      (∀ it ∈ items, stockAt db2 it.productId =
        stockAt db it.productId - (it.quantity : Int)) ∧
      (∀ pid, priceAt db2 pid = priceAt db pid) := by
  induction items with
  | nil =>
    intro db _ _ _
    exact ⟨db, rfl, rfl, rfl, rfl, by simp, fun pid _ => rfl,
      fun it h => absurd h (List.not_mem_nil it), fun pid => rfl⟩
  | cons it rest ih =>
    intro db hnd hres hok
    rw [List.map_cons, List.nodup_cons] at hnd
    have hndr : (rest.map CartItem.productId).Nodup := hnd.2
    have hhead : it.productId ∉ rest.map CartItem.productId := hnd.1
    cases hf : findProduct db it.productId with
    | none =>
      have := hres it (List.mem_cons_self it rest)
      rw [hf] at this
      exact absurd this (by simp)
    | some p =>
      have hih := hok it (List.mem_cons_self it rest)
      rw [itemInsufficient, hf] at hih
      have hle : (it.quantity : Int) ≤ p.quantity_in_stock := by
        simpa using of_decide_eq_false hih
      have hrun : processCartItems oid db (it :: rest) =
          processCartItems oid
            { db with
              orderItems := db.orderItems ++
                [⟨oid, it.productId, it.quantity, p.price⟩],
              products := setStock db.products it.productId
                (p.quantity_in_stock - (it.quantity : Int)) } rest := by
        rw [processCartItems, hf]
        dsimp only
        rw [if_pos hle]
      set db' : DB :=
        { db with
          orderItems := db.orderItems ++
            [⟨oid, it.productId, it.quantity, p.price⟩],
          products := setStock db.products it.productId
            (p.quantity_in_stock - (it.quantity : Int)) } with hdb'
      have hF1 : ∀ pid, pid ≠ it.productId →
          findProduct db' pid = findProduct db pid := by
        intro pid hne
        show findP db'.products pid = findP db.products pid
        rw [hdb']
        exact findP_setStock_ne db.products it.productId pid _ hne
      have hF2 : findProduct db' it.productId =
          some { p with quantity_in_stock :=
            p.quantity_in_stock - (it.quantity : Int) } := by
        show findP db'.products it.productId = _
        rw [hdb']
        dsimp only
        rw [findP_setStock_self]
        unfold findProduct at hf
        rw [hf]
        rfl
      have hF3 : ∀ pid, priceAt db' pid = priceAt db pid := by
        intro pid
        show priceAtL db'.products pid = priceAtL db.products pid
        rw [hdb']
        exact priceAtL_setStock db.products it.productId pid _
      have hres' : ∀ it' ∈ rest, (findProduct db' it'.productId).isSome = true := by
        intro it' hit'
        have hne : it'.productId ≠ it.productId := by
          intro hcontra
          exact hhead (hcontra ▸ List.mem_map_of_mem CartItem.productId hit')
        rw [hF1 it'.productId hne]
        exact hres it' (List.mem_cons_of_mem it hit')
      have hok' : ∀ it' ∈ rest, itemInsufficient db' it' = false := by
        intro it' hit'
        have hne : it'.productId ≠ it.productId := by
          intro hcontra
          exact hhead (hcontra ▸ List.mem_map_of_mem CartItem.productId hit')
        rw [itemInsufficient_congr db db' it' (hF1 it'.productId hne)]
        exact hok it' (List.mem_cons_of_mem it hit')
      obtain ⟨db2, hrun2, hor, hrev, hnid, hoi, hfind, hstock, hprice⟩ :=
        ih db' hndr hres' hok'
      refine ⟨db2, by rw [hrun, hrun2], by rw [hor], by rw [hrev], by rw [hnid],
        ?_, ?_, ?_, ?_⟩
      · rw [hoi]
        have hmapeq : rest.map (mkOrderItem db' oid) = rest.map (mkOrderItem db oid) := by
          apply List.map_congr_left
          intro x _
          unfold mkOrderItem
          rw [hF3 x.productId]
        have hheaditem : mkOrderItem db oid it =
            ⟨oid, it.productId, it.quantity, p.price⟩ := by
          unfold mkOrderItem
          rw [priceAt_of_find db it.productId p hf]
        rw [hmapeq]
        show db.orderItems ++ [⟨oid, it.productId, it.quantity, p.price⟩] ++
            rest.map (mkOrderItem db oid) = _
        rw [List.map_cons, hheaditem, List.append_assoc]
        rfl
      · intro pid hpid
        have hpid1 : pid ≠ it.productId := by
          intro hcontra
          exact hpid (by simp [hcontra])
        have hpid2 : pid ∉ rest.map CartItem.productId := by
          intro hcontra
          exact hpid (by simp [hcontra])
        rw [hfind pid hpid2, hF1 pid hpid1]
      · intro it' hit'
        rcases List.mem_cons.mp hit' with hh | ht
      -- head item: its stock was decremented here and untouched afterwards
        · subst hh
          have hnm : it'.productId ∉ rest.map CartItem.productId := hhead
          rw [stockAt_congr db' db2 it'.productId (hfind it'.productId hnm)]
          rw [stockAt_of_find db' it'.productId _ hF2,
            stockAt_of_find db it'.productId p hf]
        · have hne : it'.productId ≠ it.productId := by
            intro hcontra
            exact hhead (hcontra ▸ List.mem_map_of_mem CartItem.productId ht)
          rw [hstock it' ht, stockAt_congr db db' it'.productId (hF1 it'.productId hne)]
      · intro pid
        rw [hprice pid, hF3 pid]

lemma processCartItems_fail_spec (oid : Nat) (items : List CartItem) :
    ∀ (db : DB) (it0 : CartItem),
    (items.map CartItem.productId).Nodup →
    (∀ it ∈ items, (findProduct db it.productId).isSome = true) →
    items.find? (itemInsufficient db) = some it0 →
    ∃ db2, processCartItems oid db items = .stockFail it0.productId db2 ∧
      db2.orders = db.orders ∧
      db2.reviews = db.reviews ∧
      db2.nextOrderId = db.nextOrderId ∧
      db2.orderItems = db.orderItems ++
        (items.takeWhile (fun x => !(itemInsufficient db x))).map
          (mkOrderItem db oid) ∧
      stockAt db2 it0.productId = stockAt db it0.productId ∧
      (∀ it ∈ items.takeWhile (fun x => !(itemInsufficient db x)),
        stockAt db2 it.productId = stockAt db it.productId - (it.quantity : Int)) ∧
      (∀ pid, pid ∉ items.map CartItem.productId →
        findProduct db2 pid = findProduct db pid) := by
  induction items with
  | nil =>
    intro db it0 _ _ hfirst
    exact absurd hfirst (by simp)
  | cons it rest ih =>
    intro db it0 hnd hres hfirst
    rw [List.map_cons, List.nodup_cons] at hnd
    have hndr : (rest.map CartItem.productId).Nodup := hnd.2
    have hhead : it.productId ∉ rest.map CartItem.productId := hnd.1
    cases hf : findProduct db it.productId with
    | none =>
      have := hres it (List.mem_cons_self it rest)
      rw [hf] at this
      exact absurd this (by simp)
    | some p =>
      by_cases hins : itemInsufficient db it = true
      · rw [List.find?_cons_of_pos _ hins] at hfirst
        injection hfirst with h
        subst h
        have hlt : p.quantity_in_stock < (it.quantity : Int) := by
          rw [itemInsufficient, hf] at hins
          simpa using of_decide_eq_true hins
        refine ⟨db, ?_, rfl, rfl, rfl, ?_, rfl, ?_, fun pid _ => rfl⟩
        · rw [processCartItems, hf]
          dsimp only
          rw [if_neg (not_le.mpr hlt)]
        · rw [List.takeWhile_cons, if_neg (by simp [hins])]
          simp
        · intro x hx
          rw [List.takeWhile_cons, if_neg (by simp [hins])] at hx
          exact absurd hx (List.not_mem_nil x)
      · have hinsf : itemInsufficient db it = false := by
          simpa using hins
        rw [List.find?_cons_of_neg _ hins] at hfirst
        have hle : (it.quantity : Int) ≤ p.quantity_in_stock := by
          rw [itemInsufficient, hf] at hinsf
          simpa using of_decide_eq_false hinsf
        have hrun : processCartItems oid db (it :: rest) =
            processCartItems oid
              { db with
                orderItems := db.orderItems ++
                  [⟨oid, it.productId, it.quantity, p.price⟩],
                products := setStock db.products it.productId
                  (p.quantity_in_stock - (it.quantity : Int)) } rest := by
          rw [processCartItems, hf]
          dsimp only
          rw [if_pos hle]
        set db' : DB :=
          { db with
            orderItems := db.orderItems ++
              [⟨oid, it.productId, it.quantity, p.price⟩],
            products := setStock db.products it.productId
              (p.quantity_in_stock - (it.quantity : Int)) } with hdb'
        have hF1 : ∀ pid, pid ≠ it.productId →
            findProduct db' pid = findProduct db pid := by
          intro pid hne
          show findP db'.products pid = findP db.products pid
          rw [hdb']
          exact findP_setStock_ne db.products it.productId pid _ hne
        have hF2 : findProduct db' it.productId =
            some { p with quantity_in_stock :=
              p.quantity_in_stock - (it.quantity : Int) } := by
          show findP db'.products it.productId = _
          rw [hdb']
          dsimp only
          rw [findP_setStock_self]
          unfold findProduct at hf
          rw [hf]
          rfl
        have hF3 : ∀ pid, priceAt db' pid = priceAt db pid := by
          intro pid
          show priceAtL db'.products pid = priceAtL db.products pid
          rw [hdb']
          exact priceAtL_setStock db.products it.productId pid _
        have hneOf : ∀ it' ∈ rest, it'.productId ≠ it.productId := by
          intro it' hit' hcontra
          exact hhead (hcontra ▸ List.mem_map_of_mem CartItem.productId hit')
        have hcongr : ∀ it' ∈ rest, itemInsufficient db' it' = itemInsufficient db it' := by
          intro it' hit'
          exact itemInsufficient_congr db db' it' (hF1 it'.productId (hneOf it' hit'))
        have hres' : ∀ it' ∈ rest, (findProduct db' it'.productId).isSome = true := by
          intro it' hit'
          rw [hF1 it'.productId (hneOf it' hit')]
          exact hres it' (List.mem_cons_of_mem it hit')
        have hfirst' : rest.find? (itemInsufficient db') = some it0 := by
          rw [find?_congrOn rest hcongr]
          exact hfirst
        have htw : rest.takeWhile (fun x => !(itemInsufficient db' x)) =
            rest.takeWhile (fun x => !(itemInsufficient db x)) := by
          apply takeWhile_congrOn
          intro x hx
          rw [hcongr x hx]
        obtain ⟨db2, hrun2, hor, hrev, hnid, hoi, hstock0, hpre, hfind⟩ :=
          ih db' it0 hndr hres' hfirst'
        have hit0mem : it0 ∈ rest := List.mem_of_find?_eq_some hfirst
        have hit0ne : it0.productId ≠ it.productId := hneOf it0 hit0mem
        refine ⟨db2, by rw [hrun, hrun2], by rw [hor], by rw [hrev], by rw [hnid],
          ?_, ?_, ?_, ?_⟩
        · rw [hoi]
          have hmapeq : (rest.takeWhile (fun x => !(itemInsufficient db x))).map
              (mkOrderItem db' oid) =
              (rest.takeWhile (fun x => !(itemInsufficient db x))).map
                (mkOrderItem db oid) := by
            apply List.map_congr_left
            intro x _
            unfold mkOrderItem
            rw [hF3 x.productId]
          have hheaditem : mkOrderItem db oid it =
              ⟨oid, it.productId, it.quantity, p.price⟩ := by
            unfold mkOrderItem
            rw [priceAt_of_find db it.productId p hf]
          rw [htw, hmapeq]
          show db.orderItems ++ [⟨oid, it.productId, it.quantity, p.price⟩] ++
              (rest.takeWhile (fun x => !(itemInsufficient db x))).map
                (mkOrderItem db oid) = _
          rw [List.takeWhile_cons, if_pos (by simp [hinsf]), List.map_cons,
            hheaditem, List.append_assoc]
          rfl
        · rw [hstock0, stockAt_congr db db' it0.productId (hF1 it0.productId hit0ne)]
        · intro x hx
          rw [List.takeWhile_cons, if_pos (by simp [hinsf])] at hx
          rcases List.mem_cons.mp hx with hxh | hxt
          · subst hxh
            rw [stockAt_congr db' db2 x.productId (hfind x.productId hhead),
              stockAt_of_find db' x.productId _ hF2,
              stockAt_of_find db x.productId p hf]
          · have hxrest : x ∈ rest := List.takeWhile_subset _ hxt
            have hxne : x.productId ≠ it.productId := hneOf x hxrest
            rw [hpre x (by rw [htw]; exact hxt),
              stockAt_congr db db' x.productId (hF1 x.productId hxne)]
        · intro pid hpid
          have hpid1 : pid ≠ it.productId := by
            intro hcontra
            exact hpid (by simp [hcontra])
          have hpid2 : pid ∉ rest.map CartItem.productId := by
            intro hcontra
            exact hpid (by simp [hcontra])
          rw [hfind pid hpid2, hF1 pid hpid1]

lemma purchasable_resolves (db : DB) (it : CartItem)
    (h : itemPurchasable db it = true) :
    (findProduct db it.productId).isSome = true := by
  unfold itemPurchasable at h
  cases hf : findProduct db it.productId with
  | none => rw [hf] at h; exact absurd h (by simp)
  | some p => rfl

lemma purchasable_not_insufficient (db : DB) (it : CartItem)
    (h : itemPurchasable db it = true) : itemInsufficient db it = false := by
  unfold itemPurchasable at h
  unfold itemInsufficient
  cases hf : findProduct db it.productId with
  | none => rfl
  | some p =>
    rw [hf] at h
    simp only [Bool.and_eq_true] at h
    show decide (p.quantity_in_stock < (it.quantity : Int)) = false
    exact decide_eq_false (not_lt.mpr (of_decide_eq_true h.2))

lemma checkout_ok_full (db : DB) (cart : Cart) (buyer : Nat) (addr : String)
    (hne : cart.items ≠ [])
    (hnd : (cart.items.map CartItem.productId).Nodup)
    (hres : ∀ it ∈ cart.items, (findProduct db it.productId).isSome = true)
    (hok : ∀ it ∈ cart.items, itemInsufficient db it = false) :
    ∃ db2, checkout db cart buyer (some addr) =
        (.success (newOrder db buyer cart addr), db2, none) ∧
      db2.orders = db.orders ++ [newOrder db buyer cart addr] ∧
      db2.orderItems = db.orderItems ++
        cart.items.map (mkOrderItem db db.nextOrderId) ∧
      (∀ it ∈ cart.items, stockAt db2 it.productId =
        stockAt db it.productId - (it.quantity : Int)) ∧
      (∀ pid, pid ∉ cart.items.map CartItem.productId →
        findProduct db2 pid = findProduct db pid) := by
  obtain ⟨db2, hrun, hor, hrev, hnid, hoi, hfind, hstock, hprice⟩ :=
    processCartItems_ok_spec db.nextOrderId cart.items
      { db with
        orders := db.orders ++ [newOrder db buyer cart addr]
        nextOrderId := db.nextOrderId + 1 }
      hnd hres hok
  refine ⟨db2, ?_, hor, hoi, hstock, hfind⟩
  rw [checkout.eq_def, if_neg (by simpa [List.isEmpty_iff] using hne)]
  dsimp only
  rw [show (newOrder db buyer cart addr).order_id = db.nextOrderId from rfl, hrun]

lemma checkout_fail_full (db : DB) (cart : Cart) (buyer : Nat) (addr : String)
    (it0 : CartItem)
    (hne : cart.items ≠ [])
    (hnd : (cart.items.map CartItem.productId).Nodup)
    (hres : ∀ it ∈ cart.items, (findProduct db it.productId).isSome = true)
    (hfirst : cart.items.find? (itemInsufficient db) = some it0) :
    ∃ db2, checkout db cart buyer (some addr) =
        (.insufficientStock it0.productId, db2, some cart) ∧
      db2.orders = db.orders ++ [newOrder db buyer cart addr] ∧
      db2.orderItems = db.orderItems ++
        (cart.items.takeWhile (fun x => !(itemInsufficient db x))).map
          (mkOrderItem db db.nextOrderId) ∧
      stockAt db2 it0.productId = stockAt db it0.productId ∧
      (∀ it ∈ cart.items.takeWhile (fun x => !(itemInsufficient db x)),
        stockAt db2 it.productId =
          stockAt db it.productId - (it.quantity : Int)) := by
  obtain ⟨db2, hrun, hor, hrev, hnid, hoi, hstock0, hpre, hfind⟩ :=
    processCartItems_fail_spec db.nextOrderId cart.items
      { db with
        orders := db.orders ++ [newOrder db buyer cart addr]
        nextOrderId := db.nextOrderId + 1 }
      it0 hnd hres hfirst
  refine ⟨db2, ?_, hor, hoi, hstock0, hpre⟩
  rw [checkout.eq_def, if_neg (by simpa [List.isEmpty_iff] using hne)]
  dsimp only
  rw [show (newOrder db buyer cart addr).order_id = db.nextOrderId from rfl, hrun]

/-- C2: on a non-empty cart whose lines reference distinct, active products
with stock covering every requested quantity, checkout succeeds: it returns
the created order, whose total is the sum over cart items of current price ×
quantity, whose shipping address is the supplied one and whose identifier is
fresh; exactly one order row is appended; one order item per cart line is
appended, with `price_at_purchase` frozen to the product's current price;
each purchased product's stock is decremented by the purchased quantity and
no other product row changes; and the cart is deleted. -/
theorem checkout_success_contract (db : DB) (cart : Cart) (buyer : Nat)
    (addr : String)
    (hne : cart.items ≠ [])
    (hnd : (cart.items.map CartItem.productId).Nodup)
    (hall : ∀ it ∈ cart.items, itemPurchasable db it = true)
    (hfresh : ∀ o ∈ db.orders, o.order_id < db.nextOrderId) :
    (checkout db cart buyer (some addr)).1 =
      .success (newOrder db buyer cart addr) ∧
    (newOrder db buyer cart addr).total_amount = cartItemsTotal db cart.items ∧
    (newOrder db buyer cart addr).shipping_address = addr ∧
    (newOrder db buyer cart addr).order_id ∉ db.orders.map Order.order_id ∧
    (checkout db cart buyer (some addr)).2.1.orders =
      db.orders ++ [newOrder db buyer cart addr] ∧
    (checkout db cart buyer (some addr)).2.1.orderItems =
      db.orderItems ++ cart.items.map (mkOrderItem db db.nextOrderId) ∧
    (∀ it ∈ cart.items,
      stockAt (checkout db cart buyer (some addr)).2.1 it.productId =
        stockAt db it.productId - (it.quantity : Int)) ∧
    (∀ pid, pid ∉ cart.items.map CartItem.productId →
      findProduct (checkout db cart buyer (some addr)).2.1 pid =
        findProduct db pid) ∧
    (checkout db cart buyer (some addr)).2.2 = none := by
  obtain ⟨db2, hchk, hor, hoi, hstock, hfind⟩ :=
    checkout_ok_full db cart buyer addr hne hnd
      (fun it h => purchasable_resolves db it (hall it h))
      (fun it h => purchasable_not_insufficient db it (hall it h))
  refine ⟨by rw [hchk], ?_, rfl, ?_, ?_, ?_, ?_, ?_, by rw [hchk]⟩
  · exact get_total_price_eq_cartItemsTotal db cart hall
  · show db.nextOrderId ∉ db.orders.map Order.order_id
    intro hmem
    simp only [List.mem_map] at hmem
    rcases hmem with ⟨o, ho, hoeq⟩
    exact ne_of_lt (hfresh o ho) hoeq
  · rw [hchk]
    exact hor
  · rw [hchk]
    exact hoi
  · intro it hit
    rw [hchk]
    exact hstock it hit
  · intro pid hpid
    rw [hchk]
    exact hfind pid hpid

/-- Witness for `checkout_success_contract`, the spec's own scenario:
Product A (price 10.00, stock 100), quantity 2, address `123 Main St` —
total 20.00, one order item at `price_at_purchase` 10.00, stock becomes 98,
cart deleted. -/
theorem checkout_success_contract_witness :
    (checkout exDb exCart 7 (some "123 Main St")).1 =
      .success (newOrder exDb 7 exCart "123 Main St") ∧
    (newOrder exDb 7 exCart "123 Main St").total_amount = 2000 ∧
    (checkout exDb exCart 7 (some "123 Main St")).2.1.orderItems =
      [⟨1, 1, 2, 1000⟩] ∧
    stockAt (checkout exDb exCart 7 (some "123 Main St")).2.1 1 = 98 ∧
    (checkout exDb exCart 7 (some "123 Main St")).2.2 = none := by
  have h := checkout_success_contract exDb exCart 7 "123 Main St"
    (by decide) (by decide) (by decide) (by decide)
  exact ⟨h.1, h.2.1.trans (by decide),
    (h.2.2.2.2.2.1).trans (by decide),
    (h.2.2.2.2.2.2.1 ⟨1, 2⟩ (by decide)).trans (by decide),
    h.2.2.2.2.2.2.2.2⟩

/-- C1 (amended): when some cart line's requested quantity exceeds the
freshly-read stock, checkout fails with the insufficient-stock error naming
the first such product, that product's own stock is not mutated, no
OrderItem is created for it or any later line, and the cart is not deleted
— but an Order row (carrying the full cart total) is created before any
validation, and each line before the offending one is persisted as an
OrderItem with its product's stock decremented by its quantity. -/
theorem checkout_insufficient_partial (db : DB) (cart : Cart) (buyer : Nat)
    (addr : String) (it0 : CartItem)
    (hne : cart.items ≠ [])
    (hnd : (cart.items.map CartItem.productId).Nodup)
    (hres : ∀ it ∈ cart.items, (findProduct db it.productId).isSome = true)
    (hfirst : cart.items.find? (itemInsufficient db) = some it0) :
    (checkout db cart buyer (some addr)).1 = .insufficientStock it0.productId ∧
    itemInsufficient db it0 = true ∧
    stockAt (checkout db cart buyer (some addr)).2.1 it0.productId =
      stockAt db it0.productId ∧
    (checkout db cart buyer (some addr)).2.1.orders =
      db.orders ++ [newOrder db buyer cart addr] ∧
    (checkout db cart buyer (some addr)).2.1.orderItems =
      db.orderItems ++
        (cart.items.takeWhile (fun x => !(itemInsufficient db x))).map
          (mkOrderItem db db.nextOrderId) ∧
    (∀ it ∈ cart.items.takeWhile (fun x => !(itemInsufficient db x)),
      stockAt (checkout db cart buyer (some addr)).2.1 it.productId =
        stockAt db it.productId - (it.quantity : Int)) ∧
    (checkout db cart buyer (some addr)).2.2 = some cart := by
  obtain ⟨db2, hchk, hor, hoi, hstock0, hpre⟩ :=
    checkout_fail_full db cart buyer addr it0 hne hnd hres hfirst
  refine ⟨by rw [hchk], List.find?_some hfirst, ?_, ?_, ?_, ?_, by rw [hchk]⟩
  · rw [hchk]
    exact hstock0
  · rw [hchk]
    exact hor
  · rw [hchk]
    exact hoi
  · intro x hx
    rw [hchk]
    exact hpre x hx

/-- Witness for `checkout_insufficient_partial` on the two-line scenario:
Product A (stock 100) quantity 2 before Product B (stock 1) quantity 2 —
the failure names Product B and its stock stays 1, yet an order row exists,
Product A's line is persisted with its stock decremented from 100 to 98,
and the cart survives. -/
theorem checkout_insufficient_partial_witness :
    (checkout cx2Db cx2Cart 7 (some "123 Main St")).1 = .insufficientStock 2 ∧
    stockAt (checkout cx2Db cx2Cart 7 (some "123 Main St")).2.1 2 = 1 ∧
    (checkout cx2Db cx2Cart 7 (some "123 Main St")).2.1.orders =
      cx2Db.orders ++ [newOrder cx2Db 7 cx2Cart "123 Main St"] ∧
    (checkout cx2Db cx2Cart 7 (some "123 Main St")).2.1.orderItems =
      [⟨1, 1, 2, 1000⟩] ∧
    stockAt (checkout cx2Db cx2Cart 7 (some "123 Main St")).2.1 1 = 98 ∧
    (checkout cx2Db cx2Cart 7 (some "123 Main St")).2.2 = some cx2Cart := by
  have h := checkout_insufficient_partial cx2Db cx2Cart 7 "123 Main St" ⟨2, 2⟩
    (by decide) (by decide) (by decide) (by decide)
  exact ⟨h.1, (h.2.2.1).trans (by decide), h.2.2.2.1,
    (h.2.2.2.2.1).trans (by decide),
    (h.2.2.2.2.2.1 ⟨1, 2⟩ (by decide)).trans (by decide),
    h.2.2.2.2.2.2⟩

/-- C1 counterexample: with Product A (stock 100) quantity 2 ahead of
Product B (stock 1) quantity 2, checkout does fail with the
insufficient-stock error naming Product B — but, contrary to the claim, an
Order row carrying the full cart total has been created AND a product's
stock has been mutated: Product A's stock drops from 100 to 98. -/
theorem checkout_insufficient_creates_order_cex :
    (checkout cx2Db cx2Cart 7 (some "123 Main St")).1 = .insufficientStock 2 ∧
    cx2Db.orders = [] ∧
    (checkout cx2Db cx2Cart 7 (some "123 Main St")).2.1.orders =
      [⟨1, 7, 3000, "123 Main St", "pending"⟩] ∧
    stockAt cx2Db 1 = 100 ∧
    stockAt (checkout cx2Db cx2Cart 7 (some "123 Main St")).2.1 1 = 98 := by
  decide

/-- C3 (amended): for an order created by a checkout that runs to success,
the order's total equals the sum over its attached order items of
`price_at_purchase` × quantity (an order left behind by a checkout that
stopped partway need not satisfy this — the counterexample exhibits one
whose total exceeds its items' sum). -/
theorem order_total_matches_items_on_success (db : DB) (cart : Cart)
    (buyer : Nat) (addr : String)
    (hne : cart.items ≠ [])
    (hnd : (cart.items.map CartItem.productId).Nodup)
    (hall : ∀ it ∈ cart.items, itemPurchasable db it = true)
    (hfreshItems : ∀ oi ∈ db.orderItems, oi.orderId ≠ db.nextOrderId) :
    (((checkout db cart buyer (some addr)).2.1.orderItems.filter
        (fun oi => oi.orderId == (newOrder db buyer cart addr).order_id)).map
      (fun oi => oi.price_at_purchase * oi.quantity)).sum =
      (newOrder db buyer cart addr).total_amount := by
  obtain ⟨db2, hchk, hor, hoi, hstock, hfind⟩ :=
    checkout_ok_full db cart buyer addr hne hnd
      (fun it h => purchasable_resolves db it (hall it h))
      (fun it h => purchasable_not_insufficient db it (hall it h))
  rw [hchk]
  dsimp only
  rw [hoi, List.filter_append]
  have h1 : db.orderItems.filter
      (fun oi => oi.orderId == (newOrder db buyer cart addr).order_id) = [] := by
    rw [List.filter_eq_nil_iff]
    intro oi hmem
    show ¬ (oi.orderId == db.nextOrderId) = true
    simp only [beq_iff_eq]
    exact hfreshItems oi hmem
  have h2 : (cart.items.map (mkOrderItem db db.nextOrderId)).filter
      (fun oi => oi.orderId == (newOrder db buyer cart addr).order_id) =
      cart.items.map (mkOrderItem db db.nextOrderId) := by
    rw [List.filter_eq_self]
    intro oi hmem
    simp only [List.mem_map] at hmem
    rcases hmem with ⟨it, _, heq⟩
    subst heq
    show (db.nextOrderId == db.nextOrderId) = true
    simp
  rw [h1, h2, List.nil_append, List.map_map]
  show cartItemsTotal db cart.items = get_total_price db cart
  rw [get_total_price_eq_cartItemsTotal db cart hall]

/-- Witness for `order_total_matches_items_on_success` on the Product A
scenario: the created order's items sum to its total. -/
theorem order_total_matches_items_on_success_witness :
    (((checkout exDb exCart 7 (some "123 Main St")).2.1.orderItems.filter
        (fun oi => oi.orderId == (newOrder exDb 7 exCart "123 Main St").order_id)).map
      (fun oi => oi.price_at_purchase * oi.quantity)).sum =
      (newOrder exDb 7 exCart "123 Main St").total_amount :=
  order_total_matches_items_on_success exDb exCart 7 "123 Main St"
    (by decide) (by decide) (by decide) (by decide)

/-- C3 counterexample: the checkout of Product B (stock 1, quantity 2)
stops partway, leaving an order with total 10.00 but no attached order
items — its total (1000) differs from the sum over its items (0). -/
theorem order_total_invariant_cex :
    (checkout cxDb cxCart 7 (some "123 Main St")).2.1.orders =
      [⟨1, 7, 1000, "123 Main St", "pending"⟩] ∧
    (((checkout cxDb cxCart 7 (some "123 Main St")).2.1.orderItems.filter
        (fun oi => oi.orderId == 1)).map
      (fun oi => oi.price_at_purchase * oi.quantity)).sum = 0 ∧
    (1000 : Nat) ≠ 0 := by
  decide
